import Mathlib

/-!
# Verification of the azor-chatdog session persistence core

Shallow embedding of `src/files/session_files.py` and
`src/llm/claude_client.py`.

Modelling conventions:
* A JSON value is the inductive `JVal`.  A stored file's text is modelled as
  `Option JVal`: `some v` is a file whose text decodes (via `json.load`) to
  `v`, `none` is a file whose text raises `json.JSONDecodeError`.
* The storage directory (`LOG_DIR`, defined in `files/config`, a module that
  only exports the constant) is modelled as the list of its entries,
  `FS := List (String × Option JVal)`, in `os.listdir` order; the directory
  is assumed to exist.  Paths are represented by the file name relative to
  `LOG_DIR`: every path the Python code manipulates is
  `os.path.join(LOG_DIR, name)` for a fixed `LOG_DIR`, so path equality is
  name equality.
* `datetime.now().isoformat()` is modelled by an explicit `now : String`
  argument threaded to `save_session_history`.
* Python exceptions that escape a function are modelled with `Except PyExn`.
-/

/-- A JSON value, as produced by Python's `json.load`. -/
inductive JVal : Type where
  | jstr : String → JVal
  | jnum : Int → JVal
  | jbool : Bool → JVal
  | jnull : JVal
  | jarr : List JVal → JVal
  | jobj : List (String × JVal) → JVal

/-- First binding of a key in a Python dict (keys of a decoded JSON object
are unique, so first-match lookup is dict lookup). -/
def jLookup (fields : List (String × JVal)) (k : String) : Option JVal :=
  (fields.find? (fun kv => kv.1 == k)).map (fun kv => kv.2)

/-- Python exceptions that can escape the embedded functions. -/
inductive PyExn : Type where
  | keyError : String → PyExn
  | typeError : PyExn
  | attributeError : PyExn
  | fileNotFoundError : PyExn
deriving DecidableEq, Repr

/-- `d.get(k, dflt)`: requires `d` to be a dict (`AttributeError` otherwise,
as Python raises when calling `.get` on a non-dict). -/
def pyDictGet (v : JVal) (k : String) (dflt : JVal) : Except PyExn JVal :=
  match v with
  | JVal.jobj fields =>
      match jLookup fields k with
      | some x => Except.ok x
      | none => Except.ok dflt
  | _ => Except.error PyExn.attributeError

/-- `v[k]` for a string key `k`: dict lookup (`KeyError` when absent);
subscripting a string or list with a string key, or subscripting a
non-subscriptable value, raises `TypeError`. -/
def pySubscript (v : JVal) (k : String) : Except PyExn JVal :=
  match v with
  | JVal.jobj fields =>
      match jLookup fields k with
      | some x => Except.ok x
      | none => Except.error (PyExn.keyError k)
  | _ => Except.error PyExn.typeError

/-- `for x in v`: a JSON array yields its elements, a string yields its
characters as one-character strings, a dict yields its keys; numbers,
booleans and null are not iterable (`TypeError`). -/
def pyIterate (v : JVal) : Except PyExn (List JVal) :=
  match v with
  | JVal.jarr l => Except.ok l
  | JVal.jstr s => Except.ok (s.data.map (fun c => JVal.jstr (String.singleton c)))
  | JVal.jobj fields => Except.ok (fields.map (fun kv => JVal.jstr kv.1))
  | _ => Except.error PyExn.typeError

/-- The storage directory: entries in `os.listdir` order. -/
abbrev FS := List (String × Option JVal)

/-- Whether a file of the given name exists (`os.path.exists` inside
`LOG_DIR`). -/
def fs_exists (fs : FS) (name : String) : Bool :=
  fs.any (fun e => e.1 == name)

/-- The decoded content of a file, if the file exists. -/
def fs_lookup (fs : FS) (name : String) : Option (Option JVal) :=
  (fs.find? (fun e => e.1 == name)).map (fun e => e.2)

/-- `open(name, 'w')` followed by `json.dump`: replaces the content of an
existing entry in place, or creates a new directory entry. -/
def fs_write (fs : FS) (name : String) (content : Option JVal) : FS :=
  if fs_exists fs name then
    fs.map (fun e => if e.1 == name then (name, content) else e)
  else
    fs ++ [(name, content)]

/-- `os.rename(old, new)` inside the storage directory. -/
def fs_rename (fs : FS) (old new : String) : FS :=
  fs.map (fun e => if e.1 == old then (new, e.2) else e)

/-- One turn of the universal conversation history.  The Python value is the
dict `{"role": role, "parts": [{"text": text}]}`; the embedding records the
two carried fields. -/
structure UTurn : Type where
  role : String
  text : String
deriving DecidableEq, Repr

/-- A universal-history entry as rebuilt by `load_session_history`: the code
copies `entry['role']` and `entry['text']` unchecked, so either field may be
an arbitrary JSON value. -/
structure UEntry : Type where
  role : JVal
  text : JVal

/-- Embedding of a well-formed `UTurn` into the entries `load` produces. -/
def UTurn.toEntry (u : UTurn) : UEntry :=
  ⟨JVal.jstr u.role, JVal.jstr u.text⟩

/-! ## Filename codec (`generate_friendly_filename`, lines 8–41, and the
identical sanitization chain of `rename_session_file`, lines 309–313) -/

/-- Python's `str.isspace`, equally the character class of the regex `\s`
for `str` patterns: the Unicode White_Space code points. -/
def pyIsSpace (c : Char) : Bool :=
  let n := c.toNat
  (0x9 ≤ n && n ≤ 0xD) || (0x1C ≤ n && n ≤ 0x1F) || n == 0x20 ||
  n == 0x85 || n == 0xA0 || n == 0x1680 || (0x2000 ≤ n && n ≤ 0x200A) ||
  n == 0x2028 || n == 0x2029 || n == 0x202F || n == 0x205F || n == 0x3000

/-- The character class of Python's regex `\w` for `str` patterns: ASCII
alphanumerics, the underscore, and Unicode letters/digits.  Exact on every
code point below 0x100 (the Latin-1 word characters are ª, µ, º and À–ÿ
except × and ÷); code points above 0xFF are conservatively classified as
non-word here, which is the only divergence from Python and is not relied
on by any theorem below. -/
def pyIsWordChar (c : Char) : Bool :=
  let n := c.toNat
  c.isAlphanum || c == '_' ||
  n == 0xAA || n == 0xB5 || n == 0xBA ||
  (0xC0 ≤ n && n ≤ 0xFF && n != 0xD7 && n != 0xF7)

/-- `str.strip` for an arbitrary character class: drop matching characters
from both ends. -/
def stripWhile (p : Char → Bool) (l : List Char) : List Char :=
  ((l.dropWhile p).reverse.dropWhile p).reverse

/-- `re.sub(cls+, r, s)` for a one-character class `cls` and one-character
replacement `r`: each maximal run of class characters becomes a single `r`.
The boolean argument records whether the previous character belonged to the
current run. -/
def collapseRuns (p : Char → Bool) (r : Char) : Bool → List Char → List Char
  | _, [] => []
  | inRun, c :: cs =>
      if p c then
        if inRun then collapseRuns p r true cs
        else r :: collapseRuns p r true cs
      else c :: collapseRuns p r false cs

/-- The sanitization chain shared by `generate_friendly_filename` (lines
21–32) and `rename_session_file` (lines 309–313): truncate to `maxLength`
characters, strip surrounding whitespace, delete every character matching
`[^\w\s\-]`, replace whitespace runs by `_`, collapse `_` runs, strip
surrounding underscores. -/
def sanitizeChars (maxLength : Nat) (l : List Char) : List Char :=
  let l1 := stripWhile pyIsSpace (l.take maxLength)
  let l2 := l1.filter (fun c => pyIsWordChar c || pyIsSpace c || c == '-')
  let l3 := collapseRuns pyIsSpace '_' false l2
  let l4 := collapseRuns (fun c => c == '_') '_' false l3
  stripWhile (fun c => c == '_') l4

/-- String wrapper of `sanitizeChars`. -/
def sanitize_name (s : String) (maxLength : Nat) : String :=
  ⟨sanitizeChars maxLength s.data⟩

/-- `session_id[:8]`. -/
def shortId (session_id : String) : String :=
  session_id.take 8

/-- `generate_friendly_filename(first_prompt, session_id, max_length)`
(lines 8–41): sanitize the prompt, fall back to `"conversation"` when the
result is empty, and append `_` plus the short id. -/
def generate_friendly_filename (first_prompt session_id : String)
    (max_length : Nat) : String :=
  let prompt_part := sanitize_name first_prompt max_length
  let prompt_part := if prompt_part == "" then "conversation" else prompt_part
  prompt_part ++ "_" ++ shortId session_id

/-! ## Kernel-reducible string primitives

Lean's byte-position-based `String.endsWith`, `String.replace`,
`String.splitOn` and `String.contains` do not reduce inside the kernel, so
the corresponding Python operations are embedded as structurally recursive
functions on the character list of the string. -/

/-- `str.endswith(suffix)`: suffix test on the character sequence. -/
def pyEndsWith (s suffix : String) : Bool :=
  suffix.data.isSuffixOf s.data

/-- Fuel-indexed worker for `str.replace`: replaces every non-overlapping
occurrence of `pat`, scanning left to right.  The fuel starts at the length
of the list, which bounds the number of steps; the guard on an empty `pat`
keeps the scan moving (Python's empty-pattern `replace` is never used by
this program). -/
def replaceLoop (pat rep : List Char) : Nat → List Char → List Char
  | _, [] => []
  | 0, l => l
  | fuel + 1, c :: cs =>
      if pat.isPrefixOf (c :: cs) && !pat.isEmpty then
        rep ++ replaceLoop pat rep fuel (cs.drop (pat.length - 1))
      else
        c :: replaceLoop pat rep fuel cs

/-- `str.replace(pat, rep)` for a non-empty `pat`. -/
def pyReplace (s pat rep : String) : String :=
  ⟨replaceLoop pat.data rep.data s.data.length s.data⟩

/-- `str.split(sep)` for a one-character separator, on character lists:
`"a_b" ↦ ["a","b"]`, `"_" ↦ ["",""]`, `"" ↦ [""]`. -/
def splitOnCharList (sep : Char) : List Char → List (List Char)
  | [] => [[]]
  | c :: cs =>
      match splitOnCharList sep cs with
      | [] => if c == sep then [[], []] else [[c]]
      | w :: ws => if c == sep then [] :: w :: ws else (c :: w) :: ws

/-- `str.split(sep)` for a one-character separator. -/
def pySplit (s : String) (sep : Char) : List String :=
  (splitOnCharList sep s.data).map (fun l => ⟨l⟩)

/-- `c in s` for a single character. -/
def pyContainsChar (s : String) (c : Char) : Bool :=
  s.data.contains c

/-! ## Session store: `find_session_file` (lines 72–97) -/

/-- `find_session_file(session_id)`: the legacy path
`<session_id>-log.json` is tried first; otherwise the directory is scanned
in listing order for the first name ending in `_<short_id>.json`. -/
def find_session_file (fs : FS) (session_id : String) : Option String :=
  let old_format_path := session_id ++ "-log.json"
  if fs_exists fs old_format_path then
    some old_format_path
  else
    let short_id := shortId session_id
    (fs.find? (fun e => pyEndsWith e.1 ("_" ++ short_id ++ ".json"))).map
      (fun e => e.1)

/-! ## Session store: `load_session_history` (lines 99–128) -/

/-- The history-decoding loop of `load_session_history` (lines 120–126):
each entry is subscripted with `'role'` and `'text'` (in that evaluation
order) to rebuild a universal-format dict; a malformed entry raises. -/
def decodeEntries : List JVal → Except PyExn (List UEntry)
  | [] => Except.ok []
  | e :: rest => do
      let r ← pySubscript e "role"
      let t ← pySubscript e "text"
      let tail ← decodeEntries rest
      Except.ok (⟨r, t⟩ :: tail)

/-- Total decoding of a well-formed history entry (an object carrying
`role` and `text`), used to state what `decodeEntries` returns when no
entry raises. -/
def decodeEntry (e : JVal) : UEntry :=
  match e with
  | JVal.jobj fields =>
      ⟨(jLookup fields "role").getD JVal.jnull,
       (jLookup fields "text").getD JVal.jnull⟩
  | _ => ⟨JVal.jnull, JVal.jnull⟩

/-- Bool test that `decodeEntries` cannot raise on an entry: it is an
object with both a `role` and a `text` key. -/
def entryWF (e : JVal) : Bool :=
  match e with
  | JVal.jobj fields =>
      (jLookup fields "role").isSome && (jLookup fields "text").isSome
  | _ => false

/-- `load_session_history(session_id)` (lines 99–128): resolve the file via
`find_session_file`; absent → empty history plus a "starting new session"
message; undecodable text (`json.JSONDecodeError`) → empty history plus a
decode message; otherwise iterate `log_data.get('history', [])` rebuilding
universal entries.  Only `JSONDecodeError` is caught, so `KeyError`,
`TypeError` and `AttributeError` raised while extracting fields escape
(modelled by `Except.error`); the unreachable case of a name returned by
`find_session_file` but missing from the directory is Python's uncaught
`FileNotFoundError` from `open`. -/
def load_session_history (fs : FS) (session_id : String) :
    Except PyExn (List UEntry × Option String) :=
  match find_session_file fs session_id with
  | none =>
      Except.ok ([], some ("Session log file for session '" ++
        shortId session_id ++ "...' does not exist. Starting new session."))
  | some log_filename =>
      match fs_lookup fs log_filename with
      | none => Except.error PyExn.fileNotFoundError
      | some none =>
          Except.ok ([], some ("Cannot decode log file '" ++ log_filename ++
            "'. Starting new session."))
      | some (some log_data) => do
          let histv ← pyDictGet log_data "history" (JVal.jarr [])
          let entries ← pyIterate histv
          let history ← decodeEntries entries
          Except.ok (history, none)

/-! ## Session store: `save_session_history` (lines 130–202) -/

/-- The `json_history` serialization loop of `save_session_history` (lines
173–187): each universal turn whose text is non-empty becomes the stored
object `{'role': …, 'timestamp': now, 'text': …}`; empty-text turns are
dropped. -/
def json_history_of (now : String) (history : List UTurn) : List JVal :=
  history.filterMap (fun content =>
    if content.text == "" then none
    else some (JVal.jobj
      [("role", JVal.jstr content.role),
       ("timestamp", JVal.jstr now),
       ("text", JVal.jstr content.text)]))

/-- `save_session_history(session_id, history, system_prompt, model_name)`
(lines 130–202): no-op success when the history has fewer than 2 turns;
otherwise reuse the file found by `find_session_file`, or derive a name
from the first user turn's text (falling back to the legacy pattern when no
user turn has non-empty text), then write the whole record.  `now` stands
for `datetime.now().isoformat()`; the model's write always succeeds. -/
def save_session_history (fs : FS) (now : String) (session_id : String)
    (history : List UTurn) (system_prompt model_name : String) :
    FS × Bool × Option String :=
  if history.length < 2 then (fs, true, none)
  else
    let existing_file := find_session_file fs session_id
    let log_filename :=
      match existing_file with
      | some f => f
      | none =>
          match history.find? (fun entry => entry.role == "user") with
          | some u =>
              if u.text == "" then session_id ++ "-log.json"
              else generate_friendly_filename u.text session_id 50 ++ ".json"
          | none => session_id ++ "-log.json"
    let log_data := JVal.jobj
      [("session_id", JVal.jstr session_id),
       ("model", JVal.jstr model_name),
       ("system_role", JVal.jstr system_prompt),
       ("history", JVal.jarr (json_history_of now history))]
    (fs_write fs log_filename (some log_data), true, none)

/-! ## Session store: the selection pass of `list_sessions` (lines 204–232)

The remainder of `list_sessions` (lines 234–270) opens each selected file
and emits exactly one listing entry per selected file name, so a file name
absent from the selection contributes nothing to the output of `list()`. -/

/-- Classification of one directory entry by the selection loop of
`list_sessions`: non-JSON names and the reserved `azor-wal.json` are
skipped; a legacy name `<session_id>-log.json` is kept only when no
current-format file with the same short id exists; a current-format name is
kept when its base contains `_`, yielding its friendly-name part. -/
def classify_file (files : List String) (f : String) :
    Option (String × Option String × Option String) :=
  if pyEndsWith f ".json" && f != "azor-wal.json" then
    if pyEndsWith f "-log.json" then
      let session_id := pyReplace f "-log.json" ""
      let short_id := session_id.take 8
      let has_new_format := files.any (fun fn =>
        pyEndsWith fn ("_" ++ short_id ++ ".json") && !pyEndsWith fn "-log.json")
      if has_new_format then none else some (f, some session_id, none)
    else
      let base_name := f.dropRight 5
      if pyContainsChar base_name '_' then
        let parts := pySplit base_name '_'
        some (f, none, some (String.intercalate "_" parts.dropLast))
      else none
  else none

/-- The `session_files` list built by `list_sessions` (lines 209–232),
before sorting: `(filename, old_session_id?, friendly_name?)` triples. -/
def collect_session_files (files : List String) :
    List (String × Option String × Option String) :=
  files.filterMap (classify_file files)

/-- The sorted `session_files` list consumed by the metadata loop of
`list_sessions` (line 235): `sorted(session_files, key=lambda x: x[0])`. -/
def session_files_sorted (files : List String) :
    List (String × Option String × Option String) :=
  (collect_session_files files).mergeSort (fun a b => (compare a.1 b.1).isLE)

/-! ## Session store: `rename_session_file` (lines 292–332) -/

/-- `rename_session_file(session_id, new_name)` (lines 292–332): resolve
the current file, sanitize the requested name with the shared chain, fail
on an empty result, compute `<sanitized>_<short_id>.json`, fail when a
different file occupies that path, otherwise rename. -/
def rename_session_file (fs : FS) (session_id new_name : String) :
    FS × Bool × Option String × Option String :=
  match find_session_file fs session_id with
  | none =>
      (fs, false, some ("Session file for ID '" ++ shortId session_id ++
        "...' not found."), none)
  | some old_filepath =>
      let sanitized_name := sanitize_name new_name 50
      if sanitized_name == "" then
        (fs, false,
         some "Nazwa nie może być pusta po usunięciu nieprawidłowych znaków.",
         none)
      else
        let new_filename := sanitized_name ++ "_" ++ shortId session_id ++ ".json"
        if fs_exists fs new_filename && new_filename != old_filepath then
          (fs, false,
           some ("Plik o nazwie '" ++ new_filename ++ "' już istnieje."),
           none)
        else
          (fs_rename fs old_filepath new_filename, true, none,
           some sanitized_name)

/-! ## Provider client adapter (`claude_client.py`) -/

/-- Outcome of the underlying `client.messages.create` call as observed by
`send_message`: a response whose `content` is a list of blocks (each block
optionally exposing a `text` attribute), or a raised exception (covering
both an SDK error and the absent-Messages-API `RuntimeError` path). -/
inductive ApiResult : Type where
  | blocks : List (Option String) → ApiResult
  | raises : ApiResult

/-- The apology text substituted on provider failure (line 94). -/
def claudeErrText : String :=
  "Przepraszam, wystąpił błąd podczas generowania odpowiedzi Claude."

/-- The request body built by `send_message` (lines 43–52): universal turns
mapped to `(role, content)` pairs, `model` turns becoming `assistant`,
other roles skipped. -/
def messagesOf (history : List UTurn) : List (String × String) :=
  history.filterMap (fun entry =>
    if entry.role == "user" then some ("user", entry.text)
    else if entry.role == "model" || entry.role == "assistant" then
      some ("assistant", entry.text)
    else none)

/-- `ClaudeChatSessionWrapper.send_message(text)` (lines 37–96): append the
user turn, call the API with the accumulated messages; on a response with a
non-empty `content` list, concatenate the blocks' texts, append the model
turn and return it; on an empty `content` list the code falls through to
`raise RuntimeError`, and any raised exception is swallowed by appending
and returning the apology text.  Returns the new `_history` and the
returned response text. -/
def send_message (api : List (String × String) → ApiResult)
    (history : List UTurn) (text : String) : List UTurn × String :=
  let hist1 := history ++ [⟨"user", text⟩]
  match api (messagesOf hist1) with
  | ApiResult.blocks texts =>
      if texts.isEmpty then
        (hist1 ++ [⟨"model", claudeErrText⟩], claudeErrText)
      else
        let text_out := String.join (texts.filterMap id)
        (hist1 ++ [⟨"model", text_out⟩], text_out)
  | ApiResult.raises =>
      (hist1 ++ [⟨"model", claudeErrText⟩], claudeErrText)

/-- `ClaudeLLMClient.count_history_tokens(history)` (lines 152–157): `0`
for an absent (`None`) or empty history, otherwise the total character
count of the turns' texts, floor-divided by 4. -/
def count_history_tokens (history : Option (List UTurn)) : Nat :=
  match history with
  | none => 0
  | some h =>
      if h.isEmpty then 0
      else (h.map (fun t => t.text.length)).sum / 4

/-! ## Claims -/

/-- C9: for every universal history, `count_history_tokens` returns the
total number of characters of the turns' texts floor-divided by 4, and
returns 0 for an empty or absent history. -/
theorem count_history_tokens_spec (h : List UTurn) :
    count_history_tokens (some h) =
      (h.map (fun t => t.text.length)).sum / 4 ∧
    count_history_tokens none = 0 := by
  refine ⟨?_, rfl⟩
  cases h with
  | nil => simp [count_history_tokens]
  | cons a l => simp [count_history_tokens]

/-- C5: when the underlying provider call raises, `send_message` does not
propagate the exception: it returns the non-empty apology text and appends
exactly two turns (the user turn and the synthesized model turn carrying
the apology) to the session history. -/
theorem send_message_provider_failure
    (api : List (String × String) → ApiResult)
    (history : List UTurn) (text : String)
    (hfail : api (messagesOf (history ++ [⟨"user", text⟩])) =
      ApiResult.raises) :
    (send_message api history text).2 = claudeErrText ∧
    claudeErrText ≠ "" ∧
    (send_message api history text).1 =
      history ++ [⟨"user", text⟩, ⟨"model", claudeErrText⟩] ∧
    (send_message api history text).1.length = history.length + 2 := by
  simp only [send_message, hfail]
  refine ⟨by simp, by decide, by simp, by simp⟩

/-- Witness for `send_message_provider_failure` at a concrete input. -/
theorem send_message_provider_failure_witness :
    (send_message (fun _ => ApiResult.raises) [] "Hej").2 = claudeErrText ∧
    claudeErrText ≠ "" ∧
    (send_message (fun _ => ApiResult.raises) [] "Hej").1 =
      [⟨"user", "Hej"⟩, ⟨"model", claudeErrText⟩] ∧
    (send_message (fun _ => ApiResult.raises) [] "Hej").1.length = 2 := by
  have h := send_message_provider_failure (fun _ => ApiResult.raises) [] "Hej" rfl
  simpa using h

/-- C6: for every history with fewer than 2 turns, `save_session_history`
returns success with no error and leaves the storage directory untouched:
no file is created or modified. -/
theorem save_short_history_noop (fs : FS) (now session_id : String)
    (history : List UTurn) (system_prompt model_name : String)
    (h : history.length < 2) :
    save_session_history fs now session_id history system_prompt model_name =
      (fs, true, none) := by
  unfold save_session_history
  simp [h]

/-- Witness for `save_short_history_noop` at a concrete input. -/
theorem save_short_history_noop_witness :
    save_session_history [("a_abcdef12.json", some (JVal.jobj []))] "t"
      "abcdef12-0000" [⟨"user", "hi"⟩] "sys" "model" =
      ([("a_abcdef12.json", some (JVal.jobj []))], true, none) :=
  save_short_history_noop [("a_abcdef12.json", some (JVal.jobj []))] "t"
    "abcdef12-0000" [⟨"user", "hi"⟩] "sys" "model" (by decide)

/-- Decoding one stored turn as written by `json_history_of`: the `role`
and `text` fields are found, the `timestamp` is ignored. -/
theorem decodeEntries_stored_cons (role now text : String)
    (rest : List JVal) :
    decodeEntries (JVal.jobj
        [("role", JVal.jstr role), ("timestamp", JVal.jstr now),
         ("text", JVal.jstr text)] :: rest) =
      (match decodeEntries rest with
       | Except.ok tail =>
           Except.ok (⟨JVal.jstr role, JVal.jstr text⟩ :: tail)
       | Except.error e => Except.error e) := by
  cases h : decodeEntries rest with
  | ok tail =>
      simp only [decodeEntries, pySubscript, jLookup, h]
      rfl
  | error e =>
      simp only [decodeEntries, pySubscript, jLookup, h]
      rfl

/-- C2: serializing a sequence of turns with roles in `{user, model}` and
non-empty texts to the stored record shape (the `json_history` loop of
`save_session_history`) and decoding it back (the history loop of
`load_session_history`) reconstructs exactly the same ordered sequence of
(role, text) pairs; timestamps are not compared. -/
theorem history_round_trip (now : String) (turns : List UTurn)
    (hrole : ∀ u ∈ turns, u.role = "user" ∨ u.role = "model")
    (htext : ∀ u ∈ turns, u.text ≠ "") :
    decodeEntries (json_history_of now turns) =
      Except.ok (turns.map UTurn.toEntry) := by
  induction turns with
  | nil => rfl
  | cons u rest ih =>
      have hu : u.text ≠ "" := htext u (List.mem_cons_self u rest)
      have h1 : json_history_of now (u :: rest) =
          JVal.jobj [("role", JVal.jstr u.role), ("timestamp", JVal.jstr now),
            ("text", JVal.jstr u.text)] :: json_history_of now rest := by
        simp [json_history_of, hu]
      have ih' := ih (fun v hv => hrole v (List.mem_cons_of_mem u hv))
        (fun v hv => htext v (List.mem_cons_of_mem u hv))
      rw [h1, decodeEntries_stored_cons, ih']
      rfl

/-- Witness for `history_round_trip` at a concrete two-turn history. -/
theorem history_round_trip_witness :
    decodeEntries (json_history_of "2024-01-01T00:00:00"
        [⟨"user", "Hello"⟩, ⟨"model", "Hi"⟩]) =
      Except.ok [⟨JVal.jstr "user", JVal.jstr "Hello"⟩,
        ⟨JVal.jstr "model", JVal.jstr "Hi"⟩] := by
  have h := history_round_trip "2024-01-01T00:00:00"
    [⟨"user", "Hello"⟩, ⟨"model", "Hi"⟩]
    (by intro u hu; fin_cases hu <;> simp)
    (by intro u hu; fin_cases hu <;> simp)
  simpa [UTurn.toEntry] using h

/-- Counterexample to C1 as stated: with both the legacy file
`abcdef12-log.json` and the current-format file `chat_abcdef12.json`
present, `find_session_file` returns the legacy path, not the
current-format path (the code tries the old format first, lines 86–89). -/
theorem find_current_precedence_counterexample :
    find_session_file
        [("abcdef12-log.json", some (JVal.jobj [])),
         ("chat_abcdef12.json", some (JVal.jobj []))] "abcdef12" =
      some "abcdef12-log.json" ∧
    find_session_file
        [("abcdef12-log.json", some (JVal.jobj [])),
         ("chat_abcdef12.json", some (JVal.jobj []))] "abcdef12" ≠
      some "chat_abcdef12.json" := by
  refine ⟨rfl, by decide⟩

/-- The selection loop of `list_sessions` keeps the file name it
classifies. -/
theorem classify_file_fst (files : List String) (g : String)
    (t : String × Option String × Option String)
    (h : classify_file files g = some t) : t.1 = g := by
  unfold classify_file at h
  simp only [] at h
  split at h
  · split at h
    · split at h
      · exact absurd h (by simp)
      · have h' := Option.some.inj h
        subst h'
        rfl
    · split at h
      · have h' := Option.some.inj h
        subst h'
        rfl
      · exact absurd h (by simp)
  · exact absurd h (by simp)

/-- A legacy file superseded by a current-format file with the same short
id is dropped by the selection loop of `list_sessions`. -/
theorem classify_file_suppressed (files : List String) (f : String)
    (hlog : pyEndsWith f "-log.json" = true)
    (hnew : (files.any (fun fn =>
        pyEndsWith fn ("_" ++ (pyReplace f "-log.json" "").take 8 ++ ".json") &&
        !pyEndsWith fn "-log.json")) = true) :
    classify_file files f = none := by
  cases hA : (pyEndsWith f ".json" && f != "azor-wal.json") with
  | false => simp [classify_file, hA]
  | true => simp [classify_file, hA, hlog, hnew]

/-- C1 (amended): when both a legacy-format file `<session_id>-log.json`
and a current-format file `<name>_<short_id>.json` exist, `find` returns
the path of the *legacy* file — the old format is checked first — while
the legacy file is still excluded from the selection that produces the
output of `list()`. -/
theorem find_legacy_first_and_list_suppression :
    (∀ (fs : FS) (session_id : String),
        fs_exists fs (session_id ++ "-log.json") = true →
        find_session_file fs session_id = some (session_id ++ "-log.json")) ∧
    (∀ (files : List String) (f : String),
        pyEndsWith f "-log.json" = true →
        (files.any (fun fn =>
          pyEndsWith fn ("_" ++ (pyReplace f "-log.json" "").take 8 ++ ".json") &&
          !pyEndsWith fn "-log.json")) = true →
        f ∉ (collect_session_files files).map (fun t => t.1)) := by
  constructor
  · intro fs session_id h
    unfold find_session_file
    simp [h]
  · intro files f hlog hnew hmem
    obtain ⟨t, ht, hfst⟩ := List.mem_map.mp hmem
    obtain ⟨g, _, hg⟩ := List.mem_filterMap.mp ht
    have hgf : g = f := by
      rw [← hfst, classify_file_fst files g t hg]
    rw [hgf] at hg
    rw [classify_file_suppressed files f hlog hnew] at hg
    exact Option.noConfusion hg

/-- Witness for `find_legacy_first_and_list_suppression` at concrete
inputs. -/
theorem find_legacy_first_and_list_suppression_witness :
    find_session_file [("xyz123ab-log.json", none)] "xyz123ab" =
      some ("xyz123ab" ++ "-log.json") ∧
    "abcdef12-log.json" ∉
      (collect_session_files
        ["abcdef12-log.json", "chat_abcdef12.json"]).map (fun t => t.1) := by
  have h := find_legacy_first_and_list_suppression
  exact ⟨h.1 [("xyz123ab-log.json", none)] "xyz123ab" (by decide),
    h.2 ["abcdef12-log.json", "chat_abcdef12.json"] "abcdef12-log.json"
      (by decide) (by decide)⟩

/-- Renaming a file to its own current name maps every directory entry to
itself. -/
theorem fs_rename_self (fs : FS) (old : String) :
    fs_rename fs old old = fs := by
  unfold fs_rename
  induction fs with
  | nil => rfl
  | cons e rest ih =>
      simp only [List.map_cons, ih]
      by_cases he : (e.1 == old) = true
      · have : e.1 = old := by simpa using he
        simp [he, ← this]
      · simp [he]

/-- C7: renaming a session to a name whose computed target path is already
occupied by a *different* file fails with the collision error, performs no
rename, and returns the directory unchanged (both files untouched). -/
theorem rename_collision_fails (fs : FS) (session_id new_name old : String)
    (hfind : find_session_file fs session_id = some old)
    (hsan : sanitize_name new_name 50 ≠ "")
    (hexists : fs_exists fs
      (sanitize_name new_name 50 ++ "_" ++ shortId session_id ++ ".json") =
      true)
    (hne : sanitize_name new_name 50 ++ "_" ++ shortId session_id ++ ".json" ≠
      old) :
    rename_session_file fs session_id new_name =
      (fs, false,
       some ("Plik o nazwie '" ++
         (sanitize_name new_name 50 ++ "_" ++ shortId session_id ++ ".json") ++
         "' już istnieje."), none) := by
  have h1 : (sanitize_name new_name 50 == "") = false := by
    simpa using hsan
  have h2 : ((sanitize_name new_name 50 ++ "_" ++ shortId session_id ++
      ".json") != old) = true := by
    simpa using hne
  simp only [rename_session_file, hfind, h1, h2, hexists]
  simp

/-- Witness for `rename_collision_fails` at a concrete directory. -/
theorem rename_collision_fails_witness :
    rename_session_file [("a_abcdef12.json", none), ("b_abcdef12.json", none)]
        "abcdef12-1111" "b" =
      ([("a_abcdef12.json", none), ("b_abcdef12.json", none)], false,
       some ("Plik o nazwie '" ++
         (sanitize_name "b" 50 ++ "_" ++ shortId "abcdef12-1111" ++ ".json") ++
         "' już istnieje."), none) :=
  rename_collision_fails
    [("a_abcdef12.json", none), ("b_abcdef12.json", none)]
    "abcdef12-1111" "b" "a_abcdef12.json" (by decide) (by decide) (by decide)
    (by decide)

/-- C10: a self-rename — the computed target path equals the session's
current file path — succeeds and returns the sanitized name instead of
failing with a collision error, leaving the directory unchanged. -/
theorem rename_self_succeeds (fs : FS) (session_id new_name old : String)
    (hfind : find_session_file fs session_id = some old)
    (hsan : sanitize_name new_name 50 ≠ "")
    (heq : sanitize_name new_name 50 ++ "_" ++ shortId session_id ++ ".json" =
      old) :
    rename_session_file fs session_id new_name =
      (fs, true, none, some (sanitize_name new_name 50)) := by
  have h1 : (sanitize_name new_name 50 == "") = false := by
    simpa using hsan
  simp only [rename_session_file, hfind, h1, heq]
  simp [fs_rename_self]

/-- Witness for `rename_self_succeeds` at a concrete directory. -/
theorem rename_self_succeeds_witness :
    rename_session_file [("My_chat_abcdef12.json", some (JVal.jobj []))]
        "abcdef12-2222" "My chat" =
      ([("My_chat_abcdef12.json", some (JVal.jobj []))], true, none,
       some (sanitize_name "My chat" 50)) :=
  rename_self_succeeds [("My_chat_abcdef12.json", some (JVal.jobj []))]
    "abcdef12-2222" "My chat" "My_chat_abcdef12.json" (by decide) (by decide)
    (by decide)

/-- Counterexample to C3 as stated: saving the scenario history creates
the file `Hello_world_abcdef12.json` — the sanitizer preserves case, so
the claimed name `hello_world_abcdef12.json` is not the one created. -/
theorem save_scenario_counterexample :
    ((save_session_history [] "2024-01-01T00:00:00" "abcdef12-3456-7890"
        [⟨"user", "Hello world"⟩, ⟨"model", "Hi!"⟩] "sys" "claude-2.1").1.map
      (fun e => e.1)) = ["Hello_world_abcdef12.json"] ∧
    ("Hello_world_abcdef12.json" : String) ≠ "hello_world_abcdef12.json" := by
  exact ⟨by decide, by decide⟩

/-- C3 (amended): saving the history
`[{user, "Hello world"}, {model, "Hi!"}]` under a session id starting with
`abcdef12`, when no file for the session exists, creates exactly the file
`Hello_world_abcdef12.json` (case preserved) containing both turns, each
stamped with the write-time timestamp. -/
theorem save_scenario_creates_file (fs : FS)
    (now system_prompt model_name : String)
    (hfind : find_session_file fs "abcdef12-3456-7890" = none) :
    save_session_history fs now "abcdef12-3456-7890"
        [⟨"user", "Hello world"⟩, ⟨"model", "Hi!"⟩] system_prompt model_name =
      (fs ++ [("Hello_world_abcdef12.json", some (JVal.jobj
        [("session_id", JVal.jstr "abcdef12-3456-7890"),
         ("model", JVal.jstr model_name),
         ("system_role", JVal.jstr system_prompt),
         ("history", JVal.jarr
           [JVal.jobj [("role", JVal.jstr "user"),
             ("timestamp", JVal.jstr now),
             ("text", JVal.jstr "Hello world")],
            JVal.jobj [("role", JVal.jstr "model"),
             ("timestamp", JVal.jstr now),
             ("text", JVal.jstr "Hi!")]])]))],
       true, none) := by
  have hfind' := hfind
  unfold find_session_file at hfind'
  simp only [] at hfind'
  split at hfind'
  · exact absurd hfind' (by simp)
  · have hnone : fs.find? (fun e => pyEndsWith e.1
        ("_" ++ shortId "abcdef12-3456-7890" ++ ".json")) = none := by
      cases hc : fs.find? (fun e => pyEndsWith e.1
          ("_" ++ shortId "abcdef12-3456-7890" ++ ".json")) with
      | none => rfl
      | some e =>
          rw [hc] at hfind'
          exact absurd hfind' (by simp)
    have hnotex : fs_exists fs "Hello_world_abcdef12.json" = false := by
      unfold fs_exists
      by_contra hx
      rw [Bool.not_eq_false] at hx
      obtain ⟨e, he, hbeq⟩ := List.any_eq_true.mp hx
      have he1 : e.1 = "Hello_world_abcdef12.json" := by simpa using hbeq
      have hp := List.find?_eq_none.mp hnone e he
      rw [he1] at hp
      exact hp (by decide)
    have hmain : save_session_history fs now "abcdef12-3456-7890"
        [⟨"user", "Hello world"⟩, ⟨"model", "Hi!"⟩] system_prompt model_name =
        (fs_write fs "Hello_world_abcdef12.json" (some (JVal.jobj
          [("session_id", JVal.jstr "abcdef12-3456-7890"),
           ("model", JVal.jstr model_name),
           ("system_role", JVal.jstr system_prompt),
           ("history", JVal.jarr
             [JVal.jobj [("role", JVal.jstr "user"),
               ("timestamp", JVal.jstr now),
               ("text", JVal.jstr "Hello world")],
              JVal.jobj [("role", JVal.jstr "model"),
               ("timestamp", JVal.jstr now),
               ("text", JVal.jstr "Hi!")]])])), true, none) := by
      simp only [save_session_history, hfind]
      rfl
    rw [hmain]
    simp [fs_write, hnotex]

/-- Witness for `save_scenario_creates_file` on the empty directory. -/
theorem save_scenario_creates_file_witness :
    save_session_history [] "2024-06-01T12:00:00" "abcdef12-3456-7890"
        [⟨"user", "Hello world"⟩, ⟨"model", "Hi!"⟩] "sys" "claude-2.1" =
      ([("Hello_world_abcdef12.json", some (JVal.jobj
        [("session_id", JVal.jstr "abcdef12-3456-7890"),
         ("model", JVal.jstr "claude-2.1"),
         ("system_role", JVal.jstr "sys"),
         ("history", JVal.jarr
           [JVal.jobj [("role", JVal.jstr "user"),
             ("timestamp", JVal.jstr "2024-06-01T12:00:00"),
             ("text", JVal.jstr "Hello world")],
            JVal.jobj [("role", JVal.jstr "model"),
             ("timestamp", JVal.jstr "2024-06-01T12:00:00"),
             ("text", JVal.jstr "Hi!")]])]))],
       true, none) := by
  have h := save_scenario_creates_file [] "2024-06-01T12:00:00" "sys"
    "claude-2.1" rfl
  simpa using h

/-- Counterexample to C8 as stated: on a file whose content is valid JSON
but whose history entry lacks a `role` field, `load_session_history` does
hard-fail — the `KeyError` from `entry['role']` is not caught (the code
only catches `json.JSONDecodeError`). -/
theorem load_never_hard_fails_counterexample :
    load_session_history
        [("s_abcdef12.json", some (JVal.jobj
          [("history", JVal.jarr [JVal.jobj []])]))] "abcdef12-9999" =
      Except.error (PyExn.keyError "role") := rfl

/-- Decoding a history whose entries are all objects carrying `role` and
`text` cannot raise. -/
theorem decodeEntries_of_wf (entries : List JVal)
    (h : entries.all entryWF = true) :
    decodeEntries entries = Except.ok (entries.map decodeEntry) := by
  induction entries with
  | nil => rfl
  | cons e rest ih =>
      rw [List.all_cons, Bool.and_eq_true] at h
      obtain ⟨he, hrest⟩ := h
      cases e with
      | jobj fields =>
          simp only [entryWF, Bool.and_eq_true, Option.isSome_iff_exists]
            at he
          obtain ⟨⟨r, hr⟩, ⟨t, ht⟩⟩ := he
          simp only [decodeEntries, pySubscript, hr, ht, ih hrest,
            List.map_cons, decodeEntry, Option.getD_some]
          rfl
      | jstr s => simp [entryWF] at he
      | jnum n => simp [entryWF] at he
      | jbool b => simp [entryWF] at he
      | jnull => simp [entryWF] at he
      | jarr l => simp [entryWF] at he

/-- C8 (amended): `load` recovers from an absent file (empty history plus
a "starting new session" signal) and from undecodable content (empty
history plus a decode signal), and returns the decoded history with no
error when the content is an object whose `history` (defaulting to `[]`)
is an array of objects each carrying `role` and `text`; outside that shape
the uncaught `KeyError`/`TypeError`/`AttributeError` escapes, so "never
hard-fails" holds only for well-formed records. -/
theorem load_recovers_or_decodes (fs : FS) (session_id : String) :
    (find_session_file fs session_id = none →
      load_session_history fs session_id =
        Except.ok ([], some ("Session log file for session '" ++
          shortId session_id ++
          "...' does not exist. Starting new session."))) ∧
    (∀ name, find_session_file fs session_id = some name →
      fs_lookup fs name = some none →
      load_session_history fs session_id =
        Except.ok ([], some ("Cannot decode log file '" ++ name ++
          "'. Starting new session."))) ∧
    (∀ name v entries, find_session_file fs session_id = some name →
      fs_lookup fs name = some (some v) →
      pyDictGet v "history" (JVal.jarr []) = Except.ok (JVal.jarr entries) →
      entries.all entryWF = true →
      load_session_history fs session_id =
        Except.ok (entries.map decodeEntry, none)) := by
  refine ⟨?_, ?_, ?_⟩
  · intro h
    simp only [load_session_history, h]
  · intro name hfind hlook
    simp only [load_session_history, hfind, hlook]
  · intro name v entries hfind hlook hget hwf
    simp only [load_session_history, hfind, hlook, hget]
    trans (Except.bind (decodeEntries entries)
      (fun history => Except.ok ((history : List UEntry), (none : Option String))))
    · rfl
    · rw [decodeEntries_of_wf entries hwf]
      rfl

/-- Witness for `load_recovers_or_decodes` on a concrete well-formed
record. -/
theorem load_recovers_or_decodes_witness :
    load_session_history
        [("s_abcdef12.json", some (JVal.jobj
          [("history", JVal.jarr [JVal.jobj
            [("role", JVal.jstr "user"), ("text", JVal.jstr "hi")]])]))]
        "abcdef12-9999" =
      Except.ok ([⟨JVal.jstr "user", JVal.jstr "hi"⟩], none) := by
  have h := (load_recovers_or_decodes
      [("s_abcdef12.json", some (JVal.jobj
        [("history", JVal.jarr [JVal.jobj
          [("role", JVal.jstr "user"), ("text", JVal.jstr "hi")]])]))]
      "abcdef12-9999").2.2 "s_abcdef12.json"
      (JVal.jobj [("history", JVal.jarr [JVal.jobj
        [("role", JVal.jstr "user"), ("text", JVal.jstr "hi")]])])
      [JVal.jobj [("role", JVal.jstr "user"), ("text", JVal.jstr "hi")]]
      rfl rfl rfl rfl
  simpa [decodeEntry, jLookup] using h

/-- Counterexample to C4 as stated: Python's `\w` is Unicode-aware, so
sanitizing `"é"` yields `"é"`, whose character é is outside
`[A-Za-z0-9_\-]` — the claimed ASCII-only character class fails. -/
theorem sanitize_ascii_class_counterexample :
    sanitize_name "é" 50 = "é" ∧
    'é' ∈ (sanitize_name "é" 50).data ∧
    ('é'.isAlphanum || 'é' == '_' || 'é' == '-') = false := by
  exact ⟨by decide, by decide, by decide⟩

/-- Stripping both ends yields an infix of the original list. -/
theorem stripWhile_isInfix (p : Char → Bool) (l : List Char) :
    stripWhile p l <:+: l := by
  unfold stripWhile
  have h1 : l.dropWhile p <:+ l := List.dropWhile_suffix p
  have h2 : (l.dropWhile p).reverse.dropWhile p <:+ (l.dropWhile p).reverse :=
    List.dropWhile_suffix p
  have h3 : ((l.dropWhile p).reverse.dropWhile p).reverse <+:
      (l.dropWhile p).reverse.reverse := by
    exact List.reverse_prefix.mpr h2
  rw [List.reverse_reverse] at h3
  exact h3.isInfix.trans h1.isInfix

/-- Characters surviving `stripWhile` come from the original list. -/
theorem mem_of_stripWhile {p : Char → Bool} {l : List Char} {c : Char}
    (h : c ∈ stripWhile p l) : c ∈ l :=
  (stripWhile_isInfix p l).sublist.mem h

/-- The head of `dropWhile p` never satisfies `p`. -/
theorem dropWhile_head?_false {p : Char → Bool} {c : Char} :
    ∀ {l : List Char}, (l.dropWhile p).head? = some c → p c = false := by
  intro l
  induction l with
  | nil => intro h; simp at h
  | cons a ys ih =>
      intro h
      rw [List.dropWhile_cons] at h
      split at h
      · exact ih h
      · have hac : a = c := by simpa using h
        rename_i hpa
        rw [← hac]
        exact Bool.not_eq_true _ ▸ Bool.of_not_eq_true hpa

/-- `dropWhile` keeps the last element when its result is non-empty. -/
theorem dropWhile_getLast?_eq {p : Char → Bool} {c : Char} :
    ∀ {l : List Char}, (l.dropWhile p).getLast? = some c →
      l.getLast? = some c := by
  intro l
  induction l with
  | nil => intro h; simp at h
  | cons a ys ih =>
      intro h
      rw [List.dropWhile_cons] at h
      split at h
      · have h2 := ih h
        have hne : ys ≠ [] := by
          intro he
          rw [he] at h2
          simp at h2
        cases ys with
        | nil => exact absurd rfl hne
        | cons b t => rw [List.getLast?_cons_cons]; exact h2
      · exact h

/-- The head of a stripped list never satisfies the stripped class. -/
theorem stripWhile_head?_false {p : Char → Bool} {l : List Char} {c : Char}
    (h : (stripWhile p l).head? = some c) : p c = false := by
  unfold stripWhile at h
  rw [List.head?_reverse] at h
  have h2 := dropWhile_getLast?_eq h
  rw [List.getLast?_reverse] at h2
  exact dropWhile_head?_false h2

/-- The last element of a stripped list never satisfies the stripped
class. -/
theorem stripWhile_getLast?_false {p : Char → Bool} {l : List Char} {c : Char}
    (h : (stripWhile p l).getLast? = some c) : p c = false := by
  unfold stripWhile at h
  rw [List.getLast?_reverse] at h
  exact dropWhile_head?_false h

/-- Characters of `collapseRuns` output are either the replacement or
original non-matching characters. -/
theorem mem_of_collapseRuns {p : Char → Bool} {r c : Char} :
    ∀ {l : List Char} {b : Bool}, c ∈ collapseRuns p r b l →
      c = r ∨ (c ∈ l ∧ p c = false) := by
  intro l
  induction l with
  | nil => intro b h; simp [collapseRuns] at h
  | cons a cs ih =>
      intro b h
      unfold collapseRuns at h
      split at h
      · split at h
        · rcases ih h with hr | ⟨hm, hp⟩
          · exact Or.inl hr
          · exact Or.inr ⟨List.mem_cons_of_mem a hm, hp⟩
        · rcases List.mem_cons.mp h with hr | h2
          · exact Or.inl hr
          · rcases ih h2 with hr | ⟨hm, hp⟩
            · exact Or.inl hr
            · exact Or.inr ⟨List.mem_cons_of_mem a hm, hp⟩
      · rcases List.mem_cons.mp h with hc | h2
        · rename_i hpa
          refine Or.inr ⟨by rw [hc]; exact List.mem_cons_self a cs, ?_⟩
          rw [← hc] at hpa
          exact Bool.of_not_eq_true hpa
        · rcases ih h2 with hr | ⟨hm, hp⟩
          · exact Or.inl hr
          · exact Or.inr ⟨List.mem_cons_of_mem a hm, hp⟩

/-- Inside a run (`inRun = true`), the next emitted character never
satisfies `p`. -/
theorem collapseRuns_head?_true {p : Char → Bool} {r c : Char} :
    ∀ {l : List Char}, (collapseRuns p r true l).head? = some c →
      p c = false := by
  intro l
  induction l with
  | nil => intro h; simp [collapseRuns] at h
  | cons a cs ih =>
      intro h
      unfold collapseRuns at h
      split at h
      · exact ih h
      · rename_i hpa
        have hac : a = c := by simpa using h
        rw [← hac]
        exact Bool.of_not_eq_true hpa

/-- Collapsing runs of the class of `r` leaves no two adjacent copies of
`r`. -/
theorem collapseRuns_chain' {p : Char → Bool} {r : Char}
    (hp : ∀ x, p x = true ↔ x = r) :
    ∀ (l : List Char) (b : Bool),
      List.Chain' (fun a b => ¬(a = r ∧ b = r)) (collapseRuns p r b l) := by
  intro l
  induction l with
  | nil => intro b; simp [collapseRuns]
  | cons a cs ih =>
      intro b
      unfold collapseRuns
      split
      · split
        · exact ih true
        · rw [List.chain'_cons']
          refine ⟨?_, ih true⟩
          intro y hy hcontra
          have hpy : p y = false := collapseRuns_head?_true hy
          rw [(hp y).2 hcontra.2] at hpy
          exact Bool.noConfusion hpy
      · rw [List.chain'_cons']
        refine ⟨?_, ih false⟩
        intro y hy hcontra
        rename_i hpa
        exact hpa ((hp a).mpr hcontra.1)

/-- Every character of a sanitized name is an underscore, a hyphen, or a
word character taken from the input. -/
theorem sanitize_name_mem (s : String) (c : Char)
    (h : c ∈ (sanitize_name s 50).data) :
    c = '_' ∨ c = '-' ∨ (pyIsWordChar c = true ∧ c ∈ s.data) := by
  have h0 : c ∈ stripWhile (fun x => x == '_')
      (collapseRuns (fun x => x == '_') '_' false
        (collapseRuns pyIsSpace '_' false
          ((stripWhile pyIsSpace (s.data.take 50)).filter
            (fun x => pyIsWordChar x || pyIsSpace x || x == '-')))) := h
  have h1 := mem_of_stripWhile h0
  rcases mem_of_collapseRuns h1 with hu | ⟨h2, _⟩
  · exact Or.inl hu
  rcases mem_of_collapseRuns h2 with hu | ⟨h3, hns⟩
  · exact Or.inl hu
  obtain ⟨h4, hpred⟩ := List.mem_filter.mp h3
  have h6 : c ∈ s.data := List.mem_of_mem_take (mem_of_stripWhile h4)
  have hpred' : (pyIsWordChar c || pyIsSpace c || c == '-') = true := hpred
  simp only [Bool.or_eq_true] at hpred'
  rcases hpred' with (hw | hsp) | hdash
  · exact Or.inr (Or.inr ⟨hw, h6⟩)
  · rw [hsp] at hns
    exact Bool.noConfusion hns
  · exact Or.inr (Or.inl (by simpa using hdash))

/-- C4 (amended): for every input, the sanitized name consists only of
Python word characters (which include Unicode letters such as é, not only
`[A-Za-z0-9_]`) and hyphens, never starts or ends with an underscore,
never contains two consecutive underscores, and is derived from at most
the first 50 characters of the input; over ASCII-only inputs the output
characters do all lie in `[A-Za-z0-9_\-]`. -/
theorem sanitize_name_spec (s : String) :
    (∀ c ∈ (sanitize_name s 50).data, pyIsWordChar c = true ∨ c = '-') ∧
    (sanitize_name s 50).data.head? ≠ some '_' ∧
    (sanitize_name s 50).data.getLast? ≠ some '_' ∧
    List.Chain' (fun a b => ¬(a = '_' ∧ b = '_')) (sanitize_name s 50).data ∧
    sanitize_name s 50 = sanitize_name ⟨s.data.take 50⟩ 50 ∧
    ((∀ c ∈ s.data, c.toNat ≤ 127) →
      ∀ c ∈ (sanitize_name s 50).data,
        (c.isAlphanum || c == '_' || c == '-') = true) := by
  refine ⟨?_, ?_, ?_, ?_, ?_, ?_⟩
  · intro c hc
    rcases sanitize_name_mem s c hc with hu | hd | ⟨hw, _⟩
    · rw [hu]
      exact Or.inl (by decide)
    · exact Or.inr hd
    · exact Or.inl hw
  · intro heq
    have h := stripWhile_head?_false
      (show (stripWhile (fun x => x == '_')
        (collapseRuns (fun x => x == '_') '_' false
          (collapseRuns pyIsSpace '_' false
            ((stripWhile pyIsSpace (s.data.take 50)).filter
              (fun x => pyIsWordChar x || pyIsSpace x || x == '-'))))).head? =
        some '_' from heq)
    exact absurd h (by decide)
  · intro heq
    have h := stripWhile_getLast?_false
      (show (stripWhile (fun x => x == '_')
        (collapseRuns (fun x => x == '_') '_' false
          (collapseRuns pyIsSpace '_' false
            ((stripWhile pyIsSpace (s.data.take 50)).filter
              (fun x => pyIsWordChar x || pyIsSpace x || x == '-'))))).getLast? =
        some '_' from heq)
    exact absurd h (by decide)
  · have hchain := collapseRuns_chain' (p := fun x => x == '_') (r := '_')
      (by intro x; simp)
      (collapseRuns pyIsSpace '_' false
        ((stripWhile pyIsSpace (s.data.take 50)).filter
          (fun x => pyIsWordChar x || pyIsSpace x || x == '-'))) false
    exact hchain.infix (stripWhile_isInfix _ _)
  · show sanitize_name s 50 = sanitize_name ⟨s.data.take 50⟩ 50
    unfold sanitize_name
    congr 1
    show sanitizeChars 50 s.data = sanitizeChars 50 (s.data.take 50)
    unfold sanitizeChars
    simp [List.take_take]
  · intro hascii c hc
    rcases sanitize_name_mem s c hc with hu | hd | ⟨hw, hmem⟩
    · rw [hu]; decide
    · rw [hd]; decide
    · have h127 := hascii c hmem
      simp only [pyIsWordChar, Bool.or_eq_true] at hw
      simp only [Bool.or_eq_true]
      rcases hw with ((((h | h) | h) | h) | h) | h
      · exact Or.inl (Or.inl h)
      · exact Or.inl (Or.inr h)
      · simp only [beq_iff_eq] at h
        omega
      · simp only [beq_iff_eq] at h
        omega
      · simp only [beq_iff_eq] at h
        omega
      · simp only [Bool.and_eq_true, decide_eq_true_eq, bne_iff_ne,
          beq_iff_eq] at h
        omega

/-- Witness for `sanitize_name_spec` at a concrete ASCII input. -/
theorem sanitize_name_spec_witness :
    (∀ c ∈ (sanitize_name " Hello,  world!! " 50).data,
      pyIsWordChar c = true ∨ c = '-') ∧
    (sanitize_name " Hello,  world!! " 50).data.head? ≠ some '_' ∧
    (sanitize_name " Hello,  world!! " 50).data.getLast? ≠ some '_' ∧
    List.Chain' (fun a b => ¬(a = '_' ∧ b = '_'))
      (sanitize_name " Hello,  world!! " 50).data ∧
    sanitize_name " Hello,  world!! " 50 =
      sanitize_name ⟨(" Hello,  world!! " : String).data.take 50⟩ 50 ∧
    (∀ c ∈ (sanitize_name " Hello,  world!! " 50).data,
      (c.isAlphanum || c == '_' || c == '-') = true) := by
  have h := sanitize_name_spec " Hello,  world!! "
  exact ⟨h.1, h.2.1, h.2.2.1, h.2.2.2.1, h.2.2.2.2.1,
    h.2.2.2.2.2 (by decide)⟩
